import Mathlib

set_option maxRecDepth 8000

/-!
Shallow embedding of the ESP32 light-collection logger (src/logger.py).

Times are modelled as rationals.  The accumulator mean and the matrix
quantization are computed in Python floating point; every concrete value
appearing in a theorem below (sums of small integers divided by small
powers of two, and divisions by LIGHT_STEP = 4095/8) is exactly
representable in binary floating point, so the rational model agrees with
the float computation at those points.
-/

namespace ESP32Logger

/-- Configuration constant DATA_THROTTLE = 0.1 from logger.py. -/
def DATA_THROTTLE : ℚ := 1 / 10

/-- Configuration constant MATRIX_UPDATE_INTERVAL = 4.0 from logger.py. -/
def MATRIX_UPDATE_INTERVAL : ℚ := 4

/-- Configuration constant MATRIX_HISTORY_SIZE = 8 from logger.py. -/
def MATRIX_HISTORY_SIZE : ℕ := 8

/-- Configuration constant MAX_LIGHT_VALUE = 4095 from logger.py. -/
def MAX_LIGHT_VALUE : ℚ := 4095

/-- Configuration constant LIGHT_STEP = MAX_LIGHT_VALUE / 8 from logger.py
(Python true division: 4095 / 8 = 511.875, exact in binary floating point). -/
def LIGHT_STEP : ℚ := MAX_LIGHT_VALUE / 8

/-- One data row of the session CSV log: master IP and light value
(the wall-clock timestamp column carries no information the claims need). -/
structure LogRow where
  masterIP : String
  lightValue : ℤ
deriving Repr, DecidableEq

/-- The global mutable state of logger.py that the claims are about:
the stop flag, the packet queue (message text with source IP), the matrix
column history, the light-value accumulator, the packet counter, the two
throttle/aggregation clocks, the session log file (open flag and rows),
and the reset-in-progress flag. -/
structure PipelineState where
  stopListening : Bool
  packetQueue : List (String × String)
  matrixColumns : List ℕ
  lightValueAccumulator : List ℤ
  packetCount : ℕ
  lastProcessTime : ℚ
  lastMatrixUpdate : ℚ
  logOpen : Bool
  logRows : List LogRow
  resetInProgress : Bool
deriving Repr, DecidableEq

/-- Transcription of map_value_to_height from logger.py: clamp the input
to [0, MAX_LIGHT_VALUE], truncate the quotient by LIGHT_STEP (Python int()
on a nonnegative float is floor), cap at 7. -/
def map_value_to_height (light_value : ℚ) : ℕ :=
  let lv := max 0 (min MAX_LIGHT_VALUE light_value)
  let height := (⌊lv / LIGHT_STEP⌋).toNat
  if height > 7 then 7 else height

/-- Mean computed at the top of an aggregation fire in matrix_update_thread:
sum divided by length when the accumulator is nonempty, else 0. -/
def accumulator_mean (acc : List ℤ) : ℚ :=
  if acc = [] then 0 else ((acc.sum : ℤ) : ℚ) / (acc.length : ℚ)

/-- Append to the deque matrix_columns with maxlen = MATRIX_HISTORY_SIZE:
the new element goes on the right and the leftmost element is evicted
when the deque is already at capacity. -/
def matrix_columns_append (cols : List ℕ) (h : ℕ) : List ℕ :=
  (cols ++ [h]).drop (cols.length + 1 - MATRIX_HISTORY_SIZE)

/-- The body of the aggregation fire in matrix_update_thread: snapshot and
clear the accumulator, compute its mean, quantize and append to the
history (update_led_matrix itself only renders and is external). -/
def matrix_fire (s : PipelineState) : PipelineState :=
  { s with
    lightValueAccumulator := []
    matrixColumns :=
      matrix_columns_append s.matrixColumns
        (map_value_to_height (accumulator_mean s.lightValueAccumulator)) }

/-- One pass of the matrix_update_thread loop at wall-clock time now: the
loop runs while the stop flag is unset and fires only when
MATRIX_UPDATE_INTERVAL has elapsed since the previous fire. -/
def matrix_thread_step (now : ℚ) (s : PipelineState) : PipelineState :=
  if s.stopListening then s
  else if MATRIX_UPDATE_INTERVAL ≤ now - s.lastMatrixUpdate then
    { matrix_fire s with lastMatrixUpdate := now }
  else s

/-- Model of the Python str.split method with a comma separator, applied to
the character list of the message: splitting the empty string gives one
empty field, and every comma opens a new field. -/
def split_on_commas : List Char → List (List Char)
  | [] => [[]]
  | c :: rest =>
    let r := split_on_commas rest
    if c = ',' then [] :: r
    else
      match r with
      | f :: fs => (c :: f) :: fs
      | [] => [[c]]

/-- Digit-string to number, the core of Python int(): defined only on a
nonempty all-digit character list. -/
def parse_nat_digits (cs : List Char) : Option ℕ :=
  if cs ≠ [] ∧ cs.all Char.isDigit then
    some (cs.foldl (fun a c => 10 * a + (c.toNat - 48)) 0)
  else none

/-- Model of the Python int() builtin applied to one comma-separated field:
an optional single leading sign followed by one or more digits parses, and
anything else raises ValueError (None here).  The inbound message was
already whitespace-stripped at receive time. -/
def parse_int (field : List Char) : Option ℤ :=
  match field with
  | '-' :: rest => (parse_nat_digits rest).map (fun n => -(n : ℤ))
  | '+' :: rest => (parse_nat_digits rest).map (fun n => (n : ℤ))
  | other => (parse_nat_digits other).map (fun n => (n : ℤ))

/-- Transcription of log_master_data from logger.py at wall-clock time now:
drop when less than DATA_THROTTLE has elapsed since the last acceptance;
otherwise update the acceptance clock, bump the counter, append to the
accumulator, and (when the writer is open) append a row to the session log. -/
def log_master_data (now : ℚ) (master_ip : String) (light_value : ℤ)
    (s : PipelineState) : PipelineState :=
  if now - s.lastProcessTime < DATA_THROTTLE then s
  else
    let s1 := { s with
      lastProcessTime := now
      packetCount := s.packetCount + 1
      lightValueAccumulator := s.lightValueAccumulator ++ [light_value] }
    if s1.logOpen then
      { s1 with logRows := s1.logRows ++ [⟨master_ip, light_value⟩] }
    else s1

/-- Decode and dispatch one dequeued packet, mirroring the loop body of
process_packets: split on commas; with fewer than 3 fields the record is
skipped (no exception); otherwise int() is applied to fields 0 and 1, and
a parse failure raises ValueError, modelled as none; a master record
(field 0 equal to 1) is forwarded to log_master_data. -/
def process_one (now : ℚ) (message : String) (address : String)
    (s : PipelineState) : Option PipelineState :=
  match split_on_commas message.data with
  | p0 :: p1 :: _ :: _ =>
    match parse_int p0, parse_int p1 with
    | some m, some v => some (if m = 1 then log_master_data now address v s else s)
    | _, _ => none
  | _ => some s

/-- The bounded dequeue loop of process_packets with explicit fuel: pop up
to the given number of packets; an exception from the loop body is caught
by the try/except wrapped around the WHOLE loop, so it ends the current
invocation with the offending packet already consumed and the rest of the
queue intact. -/
def process_packets_aux (now : ℚ) : ℕ → PipelineState → PipelineState
  | 0, s => s
  | n + 1, s =>
    match s.packetQueue with
    | [] => s
    | (message, address) :: rest =>
      let s1 := { s with packetQueue := rest }
      match process_one now message address s1 with
      | some s2 => process_packets_aux now n s2
      | none => s1

/-- Transcription of process_packets from logger.py: one invocation drains
at most 100 packets. -/
def process_packets (now : ℚ) (s : PipelineState) : PipelineState :=
  process_packets_aux now 100 s

/-- Transcription of clear_led_matrix from logger.py: a no-op when the
matrix hardware failed to initialize (MATRIX_ENABLED false); otherwise the
column history and the light accumulator are both cleared. -/
def clear_led_matrix (matrix_enabled : Bool) (s : PipelineState) : PipelineState :=
  if matrix_enabled then
    { s with matrixColumns := [], lightValueAccumulator := [] }
  else s

/-- Transcription of create_new_log_file: a fresh session file is opened
with only the header written, so the row list starts empty. -/
def create_new_log_file (s : PipelineState) : PipelineState :=
  { s with logOpen := true, logRows := [] }

/-- Transcription of close_log_file: the writer handle is dropped. -/
def close_log_file (s : PipelineState) : PipelineState :=
  { s with logOpen := false }

/-- Transcription of stop_multicast_listener on the modelled state: set the
stop flag (the receiver join has no effect on this state) and close the
session log. -/
def stop_multicast_listener (s : PipelineState) : PipelineState :=
  close_log_file { s with stopListening := true }

/-- Transcription of start_multicast_listener on the modelled state at
wall-clock time now: reset the stop flag, the packet counter and the
throttle clock, stamp the aggregation clock, clear the packet queue, run
clear_led_matrix, and create a fresh session log file. -/
def start_multicast_listener (matrix_enabled : Bool) (now : ℚ)
    (s : PipelineState) : PipelineState :=
  let s1 := { s with
    stopListening := false
    packetCount := 0
    lastProcessTime := 0
    lastMatrixUpdate := now
    packetQueue := [] }
  create_new_log_file (clear_led_matrix matrix_enabled s1)

/-- The state-changing steps of handle_reset_sequence in program order
(the LED writes, the reset broadcast and the sleeps touch no modelled
state; the broadcast slot is kept as an identity step to preserve the
position at which an exception can occur). -/
def reset_steps (matrix_enabled : Bool) (now : ℚ) :
    List (PipelineState → PipelineState) :=
  [stop_multicast_listener,
   clear_led_matrix matrix_enabled,
   fun st => st,
   start_multicast_listener matrix_enabled now]

/-- Transcription of handle_reset_sequence: the try block runs the steps in
order; fail_step = some k means an exception is raised after the first k
steps (caught by the except clause); the finally clause clears
reset_in_progress on every path. -/
def handle_reset_sequence (matrix_enabled : Bool) (now : ℚ)
    (fail_step : Option ℕ) (s : PipelineState) : PipelineState :=
  let executed :=
    match fail_step with
    | none => reset_steps matrix_enabled now
    | some k => (reset_steps matrix_enabled now).take k
  { executed.foldl (fun st f => f st) s with resetInProgress := false }

/-- The two long-running workers stopped during shutdown and reset. -/
inductive Worker
  | receiver
  | aggregator
deriving Repr, DecidableEq

/-- Observable effects of stop_multicast_listener, in program order. -/
inductive StopEvent
  | setStopFlag
  | joinThread (w : Worker) (timeout : ℚ)
  | closeLog
deriving Repr, DecidableEq

/-- Event trace of stop_multicast_listener: set the shared stop flag, join
the listening (receiver) thread with a 3 second timeout when one is
running, close the session log file.  No other join appears in the
function. -/
def stop_listener_events (has_thread : Bool) : List StopEvent :=
  [StopEvent.setStopFlag]
    ++ (if has_thread then [StopEvent.joinThread Worker.receiver 3] else [])
    ++ [StopEvent.closeLog]

/-- Recognizer for a join of the aggregator thread in a stop trace. -/
def is_aggregator_join : StopEvent → Bool
  | StopEvent.joinThread Worker.aggregator _ => true
  | _ => false

/-- Orchestrator view for the reset state machine: the reset_in_progress
flag together with the number of reset-sequence threads currently alive
(the latter is a ghost counter for stating the concurrency claim). -/
structure OrchState where
  resetInProgress : Bool
  activeSequences : ℕ
deriving Repr, DecidableEq

/-- Transcription of button_pressed_handler: the LED blink touches no
modelled state; a press while reset_in_progress returns at once, otherwise
the flag is set and one reset-sequence thread is spawned. -/
def button_pressed_handler (s : OrchState) : OrchState :=
  if s.resetInProgress then s
  else { resetInProgress := true, activeSequences := s.activeSequences + 1 }

/-- Effect of a reset-sequence thread finishing: its finally clause clears
the flag and the thread exits. -/
def reset_sequence_finished (s : OrchState) : OrchState :=
  { resetInProgress := false, activeSequences := s.activeSequences - 1 }

/-- Orchestrator states reachable from startup (flag clear, no sequence
running) under presses and sequence completions; a completion event can
only come from a running sequence. -/
inductive OrchReachable : OrchState → Prop
  | init : OrchReachable { resetInProgress := false, activeSequences := 0 }
  | press (s : OrchState) : OrchReachable s → OrchReachable (button_pressed_handler s)
  | finish (s : OrchState) : OrchReachable s → 0 < s.activeSequences →
      OrchReachable (reset_sequence_finished s)

/-- Quantization formula exactly as the claim words it:
clamp(floor(mean / 512), 0, 7). -/
def spec_claimed_height (mean : ℚ) : ℕ :=
  (min (max (⌊mean / 512⌋) 0) 7).toNat

/-- Quantization formula with the divisor the code actually uses,
maxValue / 8 = 4095 / 8: clamp(floor(mean / (4095 / 8)), 0, 7). -/
def spec_amended_height (mean : ℚ) : ℕ :=
  (min (max (⌊mean / (4095 / 8)⌋) 0) 7).toNat

/-- Sequence of aggregation fires: each list in batches holds the raw
values accumulated (via log_master_data) during one aggregation window,
and the fire then snapshots, averages and appends as in
matrix_update_thread. -/
def run_fires (s : PipelineState) (batches : List (List ℤ)) : PipelineState :=
  batches.foldl (fun st batch => matrix_fire { st with lightValueAccumulator := batch }) s

end ESP32Logger

namespace ESP32Logger

/-- Draining an empty queue changes nothing, for any remaining fuel. -/
lemma process_packets_aux_empty (now : ℚ) (n : ℕ) (s : PipelineState)
    (h : s.packetQueue = []) : process_packets_aux now n s = s := by
  cases n with
  | zero => rfl
  | succ n => simp [process_packets_aux, h]

/-- Shape of an accepted call to log_master_data: interval elapsed and
writer open. -/
lemma log_master_data_accept (now : ℚ) (ip : String) (v : ℤ) (s : PipelineState)
    (hopen : s.logOpen = true) (h : ¬ (now - s.lastProcessTime < DATA_THROTTLE)) :
    log_master_data now ip v s =
      { s with
          lastProcessTime := now
          packetCount := s.packetCount + 1
          lightValueAccumulator := s.lightValueAccumulator ++ [v]
          logRows := s.logRows ++ [⟨ip, v⟩] } := by
  simp [log_master_data, h, hopen]

/-- A call to log_master_data inside the throttle interval is a no-op. -/
lemma log_master_data_drop (now : ℚ) (ip : String) (v : ℤ) (s : PipelineState)
    (h : now - s.lastProcessTime < DATA_THROTTLE) :
    log_master_data now ip v s = s := by
  simp [log_master_data, h]

/-- C1: for two accept-candidate readings reaching the logger, after the
first is accepted at time t1, a second arriving at t2 with t2 - t1 below
DATA_THROTTLE is dropped entirely (the whole state, including log rows,
accumulator and last-accepted time, is unchanged), while a second arriving
with t2 - t1 at least DATA_THROTTLE is accepted as well; the source IPs
ip1 and ip2 are arbitrary and play no role in the gate, which is a single
global one across all devices. -/
theorem throttle_global_gate (s : PipelineState) (t1 t2 : ℚ) (ip1 ip2 : String)
    (v1 v2 : ℤ) (hopen : s.logOpen = true)
    (h1 : ¬ (t1 - s.lastProcessTime < DATA_THROTTLE)) :
    (log_master_data t1 ip1 v1 s).lastProcessTime = t1
    ∧ (log_master_data t1 ip1 v1 s).logRows = s.logRows ++ [⟨ip1, v1⟩]
    ∧ (t2 - t1 < DATA_THROTTLE →
        log_master_data t2 ip2 v2 (log_master_data t1 ip1 v1 s)
          = log_master_data t1 ip1 v1 s)
    ∧ (DATA_THROTTLE ≤ t2 - t1 →
        (log_master_data t2 ip2 v2 (log_master_data t1 ip1 v1 s)).logRows
          = s.logRows ++ [⟨ip1, v1⟩, ⟨ip2, v2⟩]
        ∧ (log_master_data t2 ip2 v2 (log_master_data t1 ip1 v1 s)).lightValueAccumulator
          = s.lightValueAccumulator ++ [v1, v2]
        ∧ (log_master_data t2 ip2 v2 (log_master_data t1 ip1 v1 s)).lastProcessTime = t2) := by
  have hs1 := log_master_data_accept t1 ip1 v1 s hopen h1
  refine ⟨by rw [hs1], by rw [hs1], ?_, ?_⟩
  · intro h2
    apply log_master_data_drop
    rw [hs1]
    simpa using h2
  · intro h2
    have hs2 := log_master_data_accept t2 ip2 v2 (log_master_data t1 ip1 v1 s)
      (by rw [hs1]; simpa using hopen)
      (by rw [hs1]; simpa using not_lt.mpr h2)
    rw [hs2, hs1]
    refine ⟨by simp, by simp, rfl⟩

/-- C5: the finally clause of handle_reset_sequence clears the
reset-in-progress flag on every execution path, whichever step (if any)
raised, so the orchestrator is back in Idle and a later press spawns a
fresh sequence. -/
theorem reset_always_returns_to_idle (me : Bool) (now : ℚ) (fail_step : Option ℕ)
    (s : PipelineState) (o : OrchState) :
    (handle_reset_sequence me now fail_step s).resetInProgress = false
    ∧ (reset_sequence_finished o).resetInProgress = false
    ∧ (button_pressed_handler (reset_sequence_finished o)).resetInProgress = true
    ∧ (button_pressed_handler (reset_sequence_finished o)).activeSequences
        = o.activeSequences - 1 + 1 := by
  refine ⟨rfl, rfl, ?_, ?_⟩ <;>
    simp [button_pressed_handler, reset_sequence_finished]

/-- Boolean check that a join event carries the 3 second timeout. -/
def join_timeout_is_three : StopEvent → Bool
  | StopEvent.joinThread _ t => decide (t = 3)
  | _ => true

/-- C6 (amended): the stop step sets the shared stop flag (which also
halts the aggregator loop, as the matrix_thread_step conjunct shows),
joins only the receiver and only with the bounded 3 second timeout, and
closes the session log; every join in the trace is timeout-bounded. -/
theorem stop_step_amended (has_thread : Bool) (now : ℚ) (s : PipelineState) :
    (stop_listener_events has_thread).all join_timeout_is_three = true
    ∧ (stop_listener_events has_thread).all (fun e => !(is_aggregator_join e)) = true
    ∧ StopEvent.setStopFlag ∈ stop_listener_events has_thread
    ∧ StopEvent.closeLog ∈ stop_listener_events has_thread
    ∧ (stop_multicast_listener s).stopListening = true
    ∧ (stop_multicast_listener s).logOpen = false
    ∧ matrix_thread_step now (stop_multicast_listener s) = stop_multicast_listener s := by
  refine ⟨?_, ?_, ?_, ?_, rfl, rfl, ?_⟩
  · cases has_thread <;> decide
  · cases has_thread <;> decide
  · cases has_thread <;> decide
  · cases has_thread <;> decide
  · simp [matrix_thread_step, stop_multicast_listener, close_log_file]

/-- C6 counterexample: the stop trace contains no join of the aggregator
thread at all, whether or not a receiver thread is running, while it does
join the receiver with the 3 second timeout; this refutes the claim that
the stop step joins each of the two workers. -/
theorem stop_never_joins_aggregator :
    (stop_listener_events true).countP is_aggregator_join = 0
    ∧ StopEvent.joinThread Worker.receiver 3 ∈ stop_listener_events true
    ∧ (stop_listener_events false).countP is_aggregator_join = 0 := by
  decide

/-- Inductive invariant of the reset orchestrator: never more than one
sequence alive, and none alive while the flag shows Idle. -/
lemma orch_invariant (s : OrchState) (h : OrchReachable s) :
    s.activeSequences ≤ 1 ∧ (s.resetInProgress = false → s.activeSequences = 0) := by
  induction h with
  | init => exact ⟨by decide, fun _ => rfl⟩
  | press t ht ih =>
    by_cases hf : t.resetInProgress
    · simpa [button_pressed_handler, hf] using ih
    · simp only [Bool.not_eq_true] at hf
      have := ih.2 hf
      simp [button_pressed_handler, hf, this]
  | finish t ht hpos ih =>
    obtain ⟨ih1, ih2⟩ := ih
    constructor
    · simp only [reset_sequence_finished]
      omega
    · intro _
      simp only [reset_sequence_finished]
      omega

/-- C8: in every reachable orchestrator state at most one reset sequence
is alive; a press while the flag is set is dropped without spawning
(the handler is the identity), and a press while Idle spawns exactly one
sequence, with the flag as the sole guard. -/
theorem reset_single_sequence (s : OrchState) (h : OrchReachable s) :
    s.activeSequences ≤ 1
    ∧ (s.resetInProgress = false → s.activeSequences = 0)
    ∧ (s.resetInProgress = true → button_pressed_handler s = s)
    ∧ (s.resetInProgress = false →
        (button_pressed_handler s).resetInProgress = true
        ∧ (button_pressed_handler s).activeSequences = 1) := by
  obtain ⟨hle, hz⟩ := orch_invariant s h
  refine ⟨hle, hz, ?_, ?_⟩
  · intro hf
    simp [button_pressed_handler, hf]
  · intro hf
    simp [button_pressed_handler, hf, hz hf]

/-- C10: starting (or restarting) the pipeline empties the inbound packet
queue and opens an empty session log, and running the packet processor on
the freshly started state is a no-op, so a packet pending from before the
stop is never decoded, logged or accumulated; the same holds for a full
reset sequence. -/
theorem start_discards_stale_packets (me : Bool) (now t : ℚ) (s : PipelineState) :
    (start_multicast_listener me now s).packetQueue = []
    ∧ (start_multicast_listener me now s).logRows = []
    ∧ process_packets t (start_multicast_listener me now s)
        = start_multicast_listener me now s
    ∧ (handle_reset_sequence me now none s).packetQueue = []
    ∧ (handle_reset_sequence me now none s).logRows = [] := by
  refine ⟨?_, ?_, ?_, ?_, ?_⟩
  · cases me <;> rfl
  · cases me <;> rfl
  · apply process_packets_aux_empty
    cases me <;> rfl
  · cases me <;> rfl
  · cases me <;> rfl

end ESP32Logger

namespace ESP32Logger

/-- Quantized heights never exceed 7, straight from the final cap. -/
lemma map_value_to_height_le_seven (q : ℚ) : map_value_to_height q ≤ 7 := by
  simp only [map_value_to_height]
  split <;> omega

/-- The code's quantization (clamp the input, floor-divide by
LIGHT_STEP = 4095/8, cap at 7) agrees with the clamp-after-floor formula
using the divisor 4095/8 at every rational mean. -/
lemma map_value_to_height_eq_amended (q : ℚ) :
    map_value_to_height q = spec_amended_height q := by
  simp only [map_value_to_height, spec_amended_height, MAX_LIGHT_VALUE, LIGHT_STEP]
  have hstep : (0:ℚ) < 4095 / 8 := by norm_num
  rcases le_or_lt q 0 with hq0 | hq0
  · have h1 : max 0 (min 4095 q) = (0:ℚ) := by
      rw [min_eq_right (by linarith : q ≤ (4095:ℚ))]
      exact max_eq_left hq0
    rw [h1]
    have h2 : (⌊(0:ℚ) / (4095/8)⌋ : ℤ) = 0 := by norm_num
    have h3 : ⌊q / (4095/8)⌋ ≤ 0 := by
      apply Int.floor_nonpos
      have h := (div_le_div_iff_of_pos_right hstep).mpr hq0
      simpa using h
    rw [h2]
    rw [max_eq_right h3]
    norm_num
  rcases le_or_lt q 4095 with hq4 | hq4
  · have h1 : max 0 (min 4095 q) = q := by
      rw [min_eq_right hq4]
      exact max_eq_right hq0.le
    rw [h1]
    have hk0 : 0 ≤ ⌊q / (4095/8)⌋ :=
      Int.floor_nonneg.mpr (div_nonneg hq0.le hstep.le)
    have hk8 : ⌊q / (4095/8)⌋ ≤ 8 := by
      have hx : q / (4095/8) ≤ 8 := by
        rw [div_le_iff₀ hstep]
        linarith
      calc ⌊q / (4095/8)⌋ ≤ ⌊(8:ℚ)⌋ := Int.floor_le_floor hx
        _ = 8 := by norm_num
    by_cases h7 : (⌊q / (4095/8)⌋).toNat > 7
    · rw [if_pos h7, max_eq_left hk0, min_eq_right (by omega)]
      decide
    · rw [if_neg h7, max_eq_left hk0, min_eq_left (by omega)]
  · have h1 : max 0 (min 4095 q) = (4095:ℚ) := by
      rw [min_eq_left hq4.le]
      norm_num
    rw [h1]
    have h2 : (⌊(4095:ℚ) / (4095/8)⌋ : ℤ) = 8 := by norm_num
    rw [h2]
    have hx : (8:ℚ) ≤ q / (4095/8) := by
      rw [le_div_iff₀ hstep]
      linarith
    have hk8 : (8:ℤ) ≤ ⌊q / (4095/8)⌋ := by
      apply Int.le_floor.mpr
      exact_mod_cast hx
    rw [max_eq_left (by omega), min_eq_right (by omega)]
    decide

/-- C2 (amended): every aggregation fire appends the bucket
clamp(floor(mean / (4095/8)), 0, 7) — the divisor is LIGHT_STEP = 511.875,
not 512 — where the mean is taken over the accumulator at fire time and is
0 when the accumulator is empty; the spec's worked examples 0 -> 0,
511 -> 0, 512 -> 1, 4095 -> 7 all hold for this formula. -/
theorem quantization_amended (s : PipelineState) :
    (matrix_fire s).matrixColumns
      = matrix_columns_append s.matrixColumns
          (spec_amended_height (accumulator_mean s.lightValueAccumulator))
    ∧ (matrix_fire s).lightValueAccumulator = []
    ∧ accumulator_mean [] = 0
    ∧ spec_amended_height 0 = 0
    ∧ spec_amended_height 511 = 0
    ∧ spec_amended_height 512 = 1
    ∧ spec_amended_height 4095 = 7 := by
  refine ⟨?_, rfl, rfl, ?_, ?_, ?_, ?_⟩
  · simp [matrix_fire, map_value_to_height_eq_amended]
  · norm_num [spec_amended_height]
  · norm_num [spec_amended_height]
  · norm_num [spec_amended_height]
  · norm_num [spec_amended_height]
    decide

/-- State at an aggregation fire whose accumulator averages 1023.75, a
value exactly representable in binary floating point (sum 4095 over 4). -/
def quant_fire_state : PipelineState :=
  { stopListening := false
    packetQueue := []
    matrixColumns := []
    lightValueAccumulator := [1023, 1023, 1024, 1025]
    packetCount := 4
    lastProcessTime := 0
    lastMatrixUpdate := 0
    logOpen := true
    logRows := []
    resetInProgress := false }

/-- C2 counterexample: at mean 4095/4 = 1023.75 the fire appends bucket 2
(since 1023.75 / 511.875 = 2 exactly), while the claimed formula
clamp(floor(mean / 512), 0, 7) gives 1, so the claim as stated is false at
this fire. -/
theorem quantization_claim_counterexample :
    accumulator_mean quant_fire_state.lightValueAccumulator = 4095 / 4
    ∧ (matrix_fire quant_fire_state).matrixColumns = [2]
    ∧ spec_claimed_height (4095 / 4) = 1
    ∧ (matrix_fire quant_fire_state).matrixColumns
        ≠ [spec_claimed_height (accumulator_mean quant_fire_state.lightValueAccumulator)] := by
  have hmean2 : accumulator_mean [1023, 1023, 1024, 1025] = 4095 / 4 := by
    norm_num [accumulator_mean]
    decide
  have hmean : accumulator_mean quant_fire_state.lightValueAccumulator = 4095 / 4 := hmean2
  have hclaim : spec_claimed_height (4095 / 4) = 1 := by
    norm_num [spec_claimed_height]
  have hheight : map_value_to_height (4095 / 4) = 2 := by
    rw [map_value_to_height_eq_amended]
    norm_num [spec_amended_height]
    decide
  have hcode : (matrix_fire quant_fire_state).matrixColumns = [2] := by
    show matrix_columns_append quant_fire_state.matrixColumns
      (map_value_to_height (accumulator_mean quant_fire_state.lightValueAccumulator)) = [2]
    rw [hmean, hheight]
    rfl
  refine ⟨hmean, hcode, hclaim, ?_⟩
  rw [hcode, hmean, hclaim]
  decide

end ESP32Logger
namespace ESP32Logger

/-- A record with fewer than 3 comma-separated fields is skipped without
an exception: process_one returns the state unchanged. -/
lemma process_one_skip_short (now : ℚ) (message address : String) (s : PipelineState)
    (hlen : (split_on_commas message.data).length < 3) :
    process_one now message address s = some s := by
  unfold process_one
  rcases hsp : split_on_commas message.data with _ | ⟨a, _ | ⟨b, _ | ⟨c, t⟩⟩⟩
  · rfl
  · rfl
  · rfl
  · rw [hsp] at hlen
    simp at hlen
    omega

/-- A record with at least 3 fields whose first or second field fails
int() raises ValueError: process_one returns none. -/
lemma process_one_parse_error (now : ℚ) (message address : String) (s : PipelineState)
    (p0 p1 p2 : List Char) (ps : List (List Char))
    (hsp : split_on_commas message.data = p0 :: p1 :: p2 :: ps)
    (hbad : parse_int p0 = none ∨ parse_int p1 = none) :
    process_one now message address s = none := by
  unfold process_one
  rcases hbad with hb | hb
  · cases hx : parse_int p1 <;> simp [hsp, hb, hx]
  · cases hx : parse_int p0 <;> simp [hsp, hb, hx]

/-- One step of the bounded dequeue loop at a nonempty queue. -/
lemma process_packets_aux_cons (now : ℚ) (n : ℕ) (s : PipelineState)
    (message address : String) (rest : List (String × String))
    (hq : s.packetQueue = (message, address) :: rest) :
    process_packets_aux now (n + 1) s =
      match process_one now message address { s with packetQueue := rest } with
      | some s2 => process_packets_aux now n s2
      | none => { s with packetQueue := rest } := by
  rcases s with ⟨f1, q, f3, f4, f5, f6, f7, f8, f9, f10⟩
  simp only at hq
  subst hq
  rfl

/-- C3 (amended): a record with fewer than 3 comma-separated fields is
dropped per-record — no log row, no accumulator update — and the
invocation continues with the remaining records and one unit of fuel
spent; a record with at least 3 fields whose first or second field is not
a parseable integer is likewise dropped with no log row and no
accumulator update, but the exception it raises ends the current
invocation of the processor, leaving the remaining records queued for the
next invocation (the error is caught, never fatal). -/
theorem malformed_records_amended (now : ℚ) (s : PipelineState)
    (message address : String) (rest : List (String × String))
    (hq : s.packetQueue = (message, address) :: rest) :
    ((split_on_commas message.data).length < 3 →
       process_packets now s
         = process_packets_aux now 99 { s with packetQueue := rest })
    ∧ (∀ p0 p1 p2 ps, split_on_commas message.data = p0 :: p1 :: p2 :: ps →
        parse_int p0 = none ∨ parse_int p1 = none →
        process_packets now s = { s with packetQueue := rest }) := by
  constructor
  · intro hlen
    show process_packets_aux now (99 + 1) s = _
    rw [process_packets_aux_cons now 99 s message address rest hq,
      process_one_skip_short now message address _ hlen]
  · intro p0 p1 p2 ps hsp hbad
    show process_packets_aux now (99 + 1) s = _
    rw [process_packets_aux_cons now 99 s message address rest hq,
      process_one_parse_error now message address _ p0 p1 p2 ps hsp hbad]

def abort_state : PipelineState :=
  { stopListening := false
    packetQueue := [("1,abc,0", "10.0.0.7"), ("1,100,0", "10.0.0.8")]
    matrixColumns := []
    lightValueAccumulator := []
    packetCount := 0
    lastProcessTime := 0
    lastMatrixUpdate := 0
    logOpen := true
    logRows := []
    resetInProgress := false }

/-- C3 counterexample: with the queue holding the malformed record
1,abc,0 followed by the well-formed record 1,100,0, one invocation of
process_packets logs nothing and accumulates nothing, and leaves the
well-formed record still queued: the exception aborted dequeuing and
processing of the remaining records in that same invocation, refuting the
claim that the loop is never aborted. -/
theorem malformed_abort_counterexample :
    (process_packets 1 abort_state).logRows = []
    ∧ (process_packets 1 abort_state).lightValueAccumulator = []
    ∧ (process_packets 1 abort_state).packetQueue = [("1,100,0", "10.0.0.8")] := by
  decide

/-- C4: an accepted reading — first field parsing to 1, second field
parsing to the integer v, throttle interval elapsed, writer open —
produces exactly one new row in the session log, carrying the sender's
source address and the parsed value exactly, appends exactly v to the
accumulator, and consumes the packet. -/
theorem accepted_reading_logged (s : PipelineState) (now : ℚ)
    (message address : String) (v : ℤ) (p0 p1 p2 : List Char) (ps : List (List Char))
    (hq : s.packetQueue = [(message, address)])
    (hsplit : split_on_commas message.data = p0 :: p1 :: p2 :: ps)
    (hp0 : parse_int p0 = some 1)
    (hp1 : parse_int p1 = some v)
    (hthr : ¬ (now - s.lastProcessTime < DATA_THROTTLE))
    (hopen : s.logOpen = true) :
    (process_packets now s).logRows = s.logRows ++ [⟨address, v⟩]
    ∧ (process_packets now s).lightValueAccumulator = s.lightValueAccumulator ++ [v]
    ∧ (process_packets now s).packetQueue = [] := by
  have hone : process_one now message address { s with packetQueue := [] }
      = some (log_master_data now address v { s with packetQueue := [] }) := by
    unfold process_one
    simp [hsplit, hp0, hp1]
  have hacc := log_master_data_accept now address v { s with packetQueue := [] }
    (by simpa using hopen) (by simpa using hthr)
  have hrun : process_packets now s
      = log_master_data now address v { s with packetQueue := [] } := by
    show process_packets_aux now (99 + 1) s = _
    rw [process_packets_aux_cons now 99 s message address [] hq, hone]
    apply process_packets_aux_empty
    rw [hacc]
  rw [hrun, hacc]
  exact ⟨rfl, rfl, rfl⟩

def accum_retained_state : PipelineState :=
  { stopListening := false
    packetQueue := []
    matrixColumns := []
    lightValueAccumulator := [2048]
    packetCount := 1
    lastProcessTime := 0
    lastMatrixUpdate := 0
    logOpen := true
    logRows := []
    resetInProgress := true }

/-- C7 counterexample: when the LED matrix failed to initialize
(MATRIX_ENABLED false), clear_led_matrix returns before touching any
state, so a full error-free reset sequence leaves a nonempty light
accumulator ([2048]) in place: the restarted pipeline does not begin with
a fresh empty accumulator, refuting the claim for every run. -/
theorem reset_no_clear_counterexample :
    (handle_reset_sequence false 0 none accum_retained_state).lightValueAccumulator
      = [2048]
    ∧ ([2048] : List ℤ) ≠ [] := by
  decide

/-- C7 (amended): when the LED matrix is enabled, an error-free run of
the reset sequence is equivalent to initial startup with the flag
cleared: the matrix history, the accumulator and the packet queue are
empty and a fresh session log file is open and empty. -/
theorem reset_fresh_state_amended (now : ℚ) (s : PipelineState) :
    handle_reset_sequence true now none s
      = { start_multicast_listener true now s with resetInProgress := false }
    ∧ (handle_reset_sequence true now none s).matrixColumns = []
    ∧ (handle_reset_sequence true now none s).lightValueAccumulator = []
    ∧ (handle_reset_sequence true now none s).packetQueue = []
    ∧ (handle_reset_sequence true now none s).logRows = []
    ∧ (handle_reset_sequence true now none s).logOpen = true
    ∧ (handle_reset_sequence true now none s).resetInProgress = false := by
  exact ⟨rfl, rfl, rfl, rfl, rfl, rfl, rfl⟩

lemma matrix_columns_append_fold (hs : List ℕ) : ∀ cols : List ℕ, cols.length ≤ 8 →
    List.foldl matrix_columns_append cols hs
      = (cols ++ hs).drop (cols.length + hs.length - 8) := by
  induction hs with
  | nil =>
    intro cols h
    simp only [List.foldl_nil, List.append_nil, List.length_nil, Nat.add_zero]
    rw [show cols.length - 8 = 0 from by omega, List.drop_zero]
  | cons x t ih =>
    intro cols h
    rw [List.foldl_cons]
    have hlen : (matrix_columns_append cols x).length ≤ 8 := by
      unfold matrix_columns_append MATRIX_HISTORY_SIZE
      simp only [List.length_drop, List.length_append, List.length_cons,
        List.length_nil]
      omega
    rw [ih _ hlen]
    simp only [matrix_columns_append, MATRIX_HISTORY_SIZE]
    rw [← List.drop_append_of_le_length (by simp; omega)]
    rw [List.drop_drop]
    have hidx : cols.length + 1 - 8 +
        (((cols ++ [x]).drop (cols.length + 1 - 8)).length + t.length - 8)
        = cols.length + (x :: t).length - 8 := by
      simp [List.length_drop]
      omega
    rw [hidx]
    simp

lemma run_fires_columns (batches : List (List ℤ)) : ∀ s : PipelineState,
    (run_fires s batches).matrixColumns
      = List.foldl matrix_columns_append s.matrixColumns
          (batches.map (fun b => map_value_to_height (accumulator_mean b))) := by
  induction batches with
  | nil => intro s; rfl
  | cons b t ih =>
    intro s
    show (run_fires (matrix_fire { s with lightValueAccumulator := b }) t).matrixColumns = _
    rw [ih]
    simp [matrix_fire]

/-- C9: starting from an empty history, after any sequence of aggregation
fires every history entry is at most 7, the history length is the number
of fires capped at 8, and the history equals the chronological list of
fired heights with all but the last 8 dropped — the oldest entry is
evicted on each append past capacity, and after more than 8 fires the
length is exactly 8. -/
theorem matrix_history_invariant (s : PipelineState) (batches : List (List ℤ))
    (h : s.matrixColumns = []) :
    (∀ x ∈ (run_fires s batches).matrixColumns, x ≤ 7)
    ∧ (run_fires s batches).matrixColumns.length = min batches.length 8
    ∧ (run_fires s batches).matrixColumns
        = (batches.map (fun b => map_value_to_height (accumulator_mean b))).drop
            (batches.length - 8) := by
  have hc := run_fires_columns batches s
  rw [h] at hc
  have hfold := matrix_columns_append_fold
    (batches.map (fun b => map_value_to_height (accumulator_mean b))) [] (by simp)
  simp only [List.nil_append, List.length_nil, Nat.zero_add] at hfold
  rw [hfold] at hc
  rw [List.length_map] at hc
  refine ⟨?_, ?_, hc⟩
  · intro x hx
    rw [hc] at hx
    have hx2 := List.mem_of_mem_drop hx
    obtain ⟨b, hb, hbx⟩ := List.mem_map.mp hx2
    rw [← hbx]
    exact map_value_to_height_le_seven _
  · rw [hc, List.length_drop, List.length_map]
    omega

end ESP32Logger
namespace ESP32Logger

/-- Freshly started session: empty queue, history, accumulator and log,
clocks at zero, writer open. -/
def idle_session_state : PipelineState :=
  { stopListening := false
    packetQueue := []
    matrixColumns := []
    lightValueAccumulator := []
    packetCount := 0
    lastProcessTime := 0
    lastMatrixUpdate := 0
    logOpen := true
    logRows := []
    resetInProgress := false }

/-- Session holding one well-formed master packet from 10.0.0.5. -/
def single_packet_state : PipelineState :=
  { idle_session_state with packetQueue := [("1,2048,0,0", "10.0.0.5")] }

/-- Session holding one record with only two comma-separated fields. -/
def short_record_state : PipelineState :=
  { idle_session_state with packetQueue := [("0,7", "10.0.0.2")] }

/-- C1 witness: at a fresh session, a reading accepted at t = 1 makes a
second candidate at t = 21/20 (only 0.05 s later, below the 0.1 s
interval) a complete no-op, from either device, while a second candidate
at t = 6/5 (0.2 s later) is accepted too, so both rows are logged. -/
theorem throttle_gate_witness :
    log_master_data (21/20) "10.0.0.6" 200
        (log_master_data 1 "10.0.0.5" 100 idle_session_state)
      = log_master_data 1 "10.0.0.5" 100 idle_session_state
    ∧ (log_master_data (6/5) "10.0.0.6" 200
        (log_master_data 1 "10.0.0.5" 100 idle_session_state)).logRows
      = idle_session_state.logRows ++ [⟨"10.0.0.5", 100⟩, ⟨"10.0.0.6", 200⟩] := by
  constructor
  · exact (throttle_global_gate idle_session_state 1 (21/20) "10.0.0.5" "10.0.0.6"
      100 200 rfl (by norm_num [idle_session_state, DATA_THROTTLE])).2.2.1
      (by norm_num [DATA_THROTTLE])
  · exact ((throttle_global_gate idle_session_state 1 (6/5) "10.0.0.5" "10.0.0.6"
      100 200 rfl (by norm_num [idle_session_state, DATA_THROTTLE])).2.2.2
      (by norm_num [DATA_THROTTLE])).1

/-- C3 witness: a two-field record is skipped with the loop continuing on
the emptied queue, and the 1,abc,0 record of the abort scenario is
consumed with the rest of the queue left intact for the next invocation. -/
theorem malformed_records_witness :
    process_packets 1 short_record_state
      = process_packets_aux 1 99 { short_record_state with packetQueue := [] }
    ∧ process_packets 1 abort_state
      = { abort_state with packetQueue := [("1,100,0", "10.0.0.8")] } := by
  constructor
  · exact (malformed_records_amended 1 short_record_state "0,7" "10.0.0.2" []
      rfl).1 (by decide)
  · exact (malformed_records_amended 1 abort_state "1,abc,0" "10.0.0.7"
      [("1,100,0", "10.0.0.8")] rfl).2
      (['1']) (['a','b','c']) (['0']) ([])
      (by decide) (Or.inr (by decide))

/-- C4 witness: processing the record 1,2048,0,0 from 10.0.0.5 at a fresh
session with the throttle satisfied appends exactly the one row
(masterIP 10.0.0.5, lightValue 2048), accumulates 2048, and consumes the
packet. -/
theorem accepted_reading_witness :
    (process_packets 1 single_packet_state).logRows
      = single_packet_state.logRows ++ [⟨"10.0.0.5", 2048⟩]
    ∧ (process_packets 1 single_packet_state).lightValueAccumulator
      = single_packet_state.lightValueAccumulator ++ [2048]
    ∧ (process_packets 1 single_packet_state).packetQueue = [] :=
  accepted_reading_logged single_packet_state 1 "1,2048,0,0" "10.0.0.5" 2048
    (['1']) (['2','0','4','8']) (['0']) ([['0']])
    rfl (by decide) (by decide) (by decide)
    (by norm_num [single_packet_state, idle_session_state, DATA_THROTTLE]) rfl

/-- C8 witness: the state with the flag set and one sequence alive is
reachable by a press from startup, and there the invariant gives at most
one alive sequence and a dropped second press. -/
theorem reset_single_sequence_witness :
    ({ resetInProgress := true, activeSequences := 1 } : OrchState).activeSequences ≤ 1
    ∧ (({ resetInProgress := true, activeSequences := 1 } : OrchState).resetInProgress = false →
        ({ resetInProgress := true, activeSequences := 1 } : OrchState).activeSequences = 0)
    ∧ (({ resetInProgress := true, activeSequences := 1 } : OrchState).resetInProgress = true →
        button_pressed_handler { resetInProgress := true, activeSequences := 1 }
          = { resetInProgress := true, activeSequences := 1 })
    ∧ (({ resetInProgress := true, activeSequences := 1 } : OrchState).resetInProgress = false →
        (button_pressed_handler { resetInProgress := true, activeSequences := 1 }).resetInProgress = true
        ∧ (button_pressed_handler { resetInProgress := true, activeSequences := 1 }).activeSequences = 1) := by
  have h : OrchReachable { resetInProgress := true, activeSequences := 1 } := by
    have h0 := OrchReachable.press _ OrchReachable.init
    simpa [button_pressed_handler] using h0
  exact reset_single_sequence _ h

/-- Nine aggregation windows, one more than the history capacity. -/
def nine_batches : List (List ℤ) :=
  [[0], [512], [4095], [100], [800], [1600], [2400], [3200], [4000]]

/-- C9 witness: from the fresh session (empty history), nine fires keep
every entry at most 7, leave exactly 8 entries, and drop only the oldest
fired height. -/
theorem matrix_history_witness :
    idle_session_state.matrixColumns = []
    ∧ ((∀ x ∈ (run_fires idle_session_state nine_batches).matrixColumns, x ≤ 7)
      ∧ (run_fires idle_session_state nine_batches).matrixColumns.length
          = min nine_batches.length 8
      ∧ (run_fires idle_session_state nine_batches).matrixColumns
          = (nine_batches.map (fun b => map_value_to_height (accumulator_mean b))).drop
              (nine_batches.length - 8)) :=
  ⟨rfl, matrix_history_invariant idle_session_state nine_batches rfl⟩

end ESP32Logger
